import Mathlib

/-!
# Shooter application shell: name store and route table

A shallow embedding of the three source files of the repository:

* `src/src/store.ts`  : the Pinia setup store `useGameStore` with the ref `name`
  and the handler `setName`;
* `src/router.js`     : the route table `routes` handed to the router;
* `src/src/main.js`   : the application bootstrap that installs router and store.

JavaScript values are modelled by a small inductive type, a statement that may
throw by a completion record paired with the store it leaves behind.
-/

namespace Shooter

/-! ## JavaScript values -/

/-- Primitive JavaScript values a property read may produce. Numbers are kept to
the integer-valued ones; they only serve as examples of non-string values. -/
inductive JSValue where
  | undefined
  | null
  | bool (b : Bool)
  | num (n : Int)
  | str (s : String)
  deriving DecidableEq, Repr

/-- An object as seen through its own data properties. -/
abbrev JSObject := List (String × JSValue)

/-- Property read `o.k`: the value stored under `k`, `undefined` when absent. -/
def getProp (o : JSObject) (k : String) : JSValue :=
  match o.lookup k with
  | some v => v
  | none => .undefined

/-- Errors raised by the language itself. -/
inductive JSError where
  | TypeError
  deriving DecidableEq, Repr

/-- How the evaluation of a call ends: with a value or with a thrown error. -/
inductive Completion where
  | normal (v : JSValue)
  | thrown (err : JSError)
  deriving DecidableEq, Repr

/-- A DOM event reduced to the one field `setName` reads. The DOM types `target`
as `EventTarget | null`; `none` stands for a `null` (or missing) target. -/
structure Event where
  target : Option JSObject
  deriving DecidableEq, Repr

/-- The event literal `{ target: { value: s } }`. -/
def eventWithValue (s : String) : Event :=
  ⟨some [("value", .str s)]⟩

/-! ## `src/src/store.ts` -/

/-- State of the `game` store: the content of the ref `name`. The TypeScript type
is `Ref<string>`, but the cast in `setName` is unchecked, so at run time the cell
holds whatever was assigned. -/
structure GameStore where
  name : JSValue
  deriving DecidableEq, Repr

/-- A freshly set up store: `const name = ref('')`. -/
def useGameStore : GameStore :=
  ⟨.str ""⟩

/-- Source `setName`:
```
const setName = (e: Event) => {
  const target = e.target as HTMLInputElement
  return (name.value = target.value)
}
```
The cast does nothing at run time. Reading `target.value` of a `null` target
throws a `TypeError` before the assignment takes place; otherwise the value read
is stored in `name` and is also the value of the assignment expression. -/
def setName (e : Event) (store : GameStore) : Completion × GameStore :=
  match e.target with
  | none => (.thrown .TypeError, store)
  | some target =>
    let v := getProp target "value"
    (.normal v, ⟨v⟩)

/-- What a consumer can do with the object the setup function returns,
`return { name, setName }`: call `setName`, or assign to the ref `name`, which is
returned as it is (the same writable cell `setName` assigns to). -/
inductive StoreAccess where
  | callSetName (e : Event)
  | assignName (v : JSValue)
  deriving DecidableEq, Repr

/-- Effect of one consumer access on the store. -/
def access (store : GameStore) : StoreAccess → GameStore
  | .callSetName e => (setName e store).2
  | .assignName v => ⟨v⟩

/-- Effect of a sequence of consumer accesses, oldest first. -/
def runAccesses (accesses : List StoreAccess) (store : GameStore) : GameStore :=
  accesses.foldl access store

/-- The value an event carries for `setName`, when its target exists. -/
def carriedValue (e : Event) : Option JSValue :=
  e.target.map fun target => getProp target "value"

/-- The value an access writes into `name`, if it writes at all. -/
def written : StoreAccess → Option JSValue
  | .callSetName e => carriedValue e
  | .assignName v => some v

/-- The value written by the most recent writing access of a trace. -/
def lastWritten (accesses : List StoreAccess) : Option JSValue :=
  accesses.reverse.findSome? written

/-! ## `src/router.js` and `src/src/main.js` -/

/-- The two view components imported by `router.js`. -/
inductive View where
  | HomePage
  | GameContainer
  deriving DecidableEq, Repr

/-- One entry of the route table, `{path, component}`. -/
structure Route where
  path : String
  component : View
  deriving DecidableEq, Repr

/-- Source `routes`:
```
const routes = [
    {path: '/', component: HomePage},
    {path: '/game', component: GameContainer}
]
```
-/
def routes : List Route :=
  [⟨"/", .HomePage⟩, ⟨"/game", .GameContainer⟩]

/-- Modelled from the spec: the failure of a route lookup, the `NotFoundError`
of the navigator contract. -/
inductive RouterError where
  | NotFoundError
  deriving DecidableEq, Repr

/-- Modelled from the spec: the lookup performed by the router that
`createRouter` builds (the router library is not part of `src/`). A path is
looked up against a table in declaration order; the view of the first entry with
that path is returned, and the lookup fails with `NotFoundError` when no entry
has it. -/
def resolveIn (table : List Route) (path : String) : Except RouterError View :=
  match table.find? (fun r => r.path == path) with
  | some r => .ok r.component
  | none => .error .NotFoundError

/-- Modelled from the spec: `resolve` of the navigator, the lookup against the
route table of `router.js`. -/
def resolve (path : String) : Except RouterError View :=
  resolveIn routes path

/-- Modelled from the spec: the in-memory history behind `createMemoryHistory()`
(not part of `src/`): the current location on top of the locations left
earlier, most recent first. -/
structure Navigator where
  location : String
  beneath : List String
  deriving DecidableEq, Repr

/-- Modelled from the spec: the navigator at application start, located at the
root path with nothing beneath it. -/
def Navigator.start : Navigator :=
  ⟨"/", []⟩

/-- Modelled from the spec: `navigate(path)` pushes a new location onto the
in-memory history. -/
def navigate (path : String) (nav : Navigator) : Navigator :=
  ⟨path, nav.location :: nav.beneath⟩

/-- Modelled from the spec: the whole in-memory history of a navigator, top
first. -/
def Navigator.entries (nav : Navigator) : List String :=
  nav.location :: nav.beneath

/-! ## Shared lemmas -/

theorem setName_of_target (target : JSObject) (store : GameStore) :
    setName ⟨some target⟩ store
      = (.normal (getProp target "value"), ⟨getProp target "value"⟩) := rfl

theorem getProp_eventWithValue (s : String) :
    getProp [("value", JSValue.str s)] "value" = .str s := by
  simp [getProp, List.lookup]

theorem runAccesses_append (xs ys : List StoreAccess) (store : GameStore) :
    runAccesses (xs ++ ys) store = runAccesses ys (runAccesses xs store) := by
  simp [runAccesses, List.foldl_append]

theorem access_name (store : GameStore) (a : StoreAccess) :
    (access store a).name = (written a).getD store.name := by
  cases a with
  | callSetName e =>
    obtain ⟨target⟩ := e
    cases target <;> rfl
  | assignName v => rfl

theorem runAccesses_name (accesses : List StoreAccess) (store : GameStore) :
    (runAccesses accesses store).name = (lastWritten accesses).getD store.name := by
  induction accesses using List.reverseRecOn with
  | nil => rfl
  | append_singleton xs a ih =>
    rw [runAccesses_append]
    have hstep : runAccesses [a] (runAccesses xs store) = access (runAccesses xs store) a := rfl
    rw [hstep, access_name, ih]
    unfold lastWritten
    rw [List.reverse_append, List.reverse_singleton, List.singleton_append,
      List.findSome?_cons]
    cases written a <;> rfl

theorem find?_path_mem {table : List Route} {p : String} {r : Route}
    (h : table.find? (fun x => x.path == p) = some r) : r ∈ table ∧ r.path = p := by
  refine ⟨List.mem_of_find?_eq_some h, ?_⟩
  have := List.find?_some h
  simpa using this

theorem find?_path_perm {table other : List Route}
    (hnodup : (table.map Route.path).Nodup) (hperm : other.Perm table) (p : String) :
    other.find? (fun x => x.path == p) = table.find? (fun x => x.path == p) := by
  cases hfind : table.find? (fun x => x.path == p) with
  | none =>
    rw [List.find?_eq_none] at hfind ⊢
    intro x hx
    exact hfind x (hperm.mem_iff.mp hx)
  | some r =>
    obtain ⟨hr, hrp⟩ := find?_path_mem hfind
    cases hother : other.find? (fun x => x.path == p) with
    | none =>
      rw [List.find?_eq_none] at hother
      exact absurd (by simpa using hrp) (hother r (hperm.mem_iff.mpr hr))
    | some q =>
      obtain ⟨hq, hqp⟩ := find?_path_mem hother
      have hqr : q = r :=
        List.inj_on_of_nodup_map hnodup (hperm.mem_iff.mp hq) hr (hqp.trans hrp.symm)
      rw [hqr]

/-! ## The name store -/

/-- C1: for every string `s` and every prior store, after `setName` is called
with an event whose `target.value` is `s`, the name of the store is exactly the
string `s`, whatever the name was before. -/
theorem setName_assigns_value (target : JSObject) (s : String) (store : GameStore)
    (h : getProp target "value" = .str s) :
    (setName ⟨some target⟩ store).2.name = .str s := by
  rw [setName_of_target, h]

/-- C1 at the scenario of the spec: `"Ada"` is stored as it is, and a following
call with the empty string leaves the empty string. -/
theorem setName_assigns_value_witness :
    getProp [("value", JSValue.str "Ada")] "value" = .str "Ada"
    ∧ (setName (eventWithValue "Ada") useGameStore).2.name = .str "Ada"
    ∧ (setName (eventWithValue "")
        (setName (eventWithValue "Ada") useGameStore).2).2.name = .str "" :=
  ⟨getProp_eventWithValue "Ada",
   setName_assigns_value _ "Ada" useGameStore (getProp_eventWithValue "Ada"),
   setName_assigns_value _ "" _ (getProp_eventWithValue "")⟩

/-- C2: for every event whose `target.value` is a string `s`, `setName` returns
`s`, and the value returned is the value of `name` right after the call. -/
theorem setName_returns_assigned (target : JSObject) (s : String) (store : GameStore)
    (h : getProp target "value" = .str s) :
    (setName ⟨some target⟩ store).1 = .normal (.str s)
    ∧ (setName ⟨some target⟩ store).1 = .normal (setName ⟨some target⟩ store).2.name := by
  rw [setName_of_target, h]
  exact ⟨rfl, rfl⟩

/-- C2 at an event carrying `"Ada"` besides another property of the target. -/
theorem setName_returns_assigned_witness :
    getProp [("id", JSValue.str "player"), ("value", JSValue.str "Ada")] "value" = .str "Ada"
    ∧ (setName ⟨some [("id", .str "player"), ("value", .str "Ada")]⟩ ⟨.str "Bob"⟩).1
        = .normal (.str "Ada") :=
  ⟨by decide,
   (setName_returns_assigned [("id", .str "player"), ("value", .str "Ada")] "Ada"
      ⟨.str "Bob"⟩ (by decide)).1⟩

/-- C3: in a freshly created game store, before any `setName` call, `name` is the
empty string. -/
theorem initial_name_is_empty :
    useGameStore.name = .str "" ∧ (runAccesses [] useGameStore).name = .str "" :=
  ⟨rfl, rfl⟩

/-- C7, as the code has it: the store hands out `setName` and the writable ref
`name` itself, so after any sequence of consumer accesses `name` is the value of
the most recent write (a `setName` call that completed or a direct assignment),
or the initial empty string when nothing was written; when consumers only call
`setName`, it is the value carried by the most recent call that completed, or the
initial empty string. -/
theorem name_is_last_written (accesses : List StoreAccess) (events : List Event) :
    (runAccesses accesses useGameStore).name = (lastWritten accesses).getD (.str "")
    ∧ (runAccesses (events.map StoreAccess.callSetName) useGameStore).name
        = (events.reverse.findSome? carriedValue).getD (.str "") := by
  refine ⟨runAccesses_name accesses useGameStore, ?_⟩
  rw [runAccesses_name]
  have hlast : lastWritten (events.map StoreAccess.callSetName)
      = events.reverse.findSome? carriedValue := by
    unfold lastWritten
    rw [← List.map_reverse]
    generalize events.reverse = es
    induction es with
    | nil => rfl
    | cons e es ih =>
      rw [List.map_cons, List.findSome?_cons, List.findSome?_cons, ih]
      rfl
  rw [hlast]
  rfl

/-- C7 fails as stated: a consumer assigns `"Eve"` to the ref `name` the store
returns; `name` is then `"Eve"`, which is neither the initial empty string nor
the value of any `setName` call, since none was made. -/
theorem name_changed_without_setName :
    (runAccesses [.assignName (.str "Eve")] useGameStore).name = .str "Eve"
    ∧ JSValue.str "Eve" ≠ .str ""
    ∧ ∀ e : Event, StoreAccess.callSetName e ∉ [StoreAccess.assignName (.str "Eve")] := by
  refine ⟨rfl, by decide, ?_⟩
  intro e he
  simp at he

/-- C8, as the code has it: `setName` validates nothing; the call throws (a
`TypeError`, leaving `name` as it was) exactly when the target of the event is
`null`, and for every target that exists it completes, storing and returning
whatever `target.value` reads, `undefined` when the target has no such field. -/
theorem setName_throws_iff_null_target (e : Event) (store : GameStore) :
    ((setName e store).1 = .thrown .TypeError ↔ e.target = none)
    ∧ (e.target = none → (setName e store).2 = store)
    ∧ (∀ target, e.target = some target →
        setName e store = (.normal (getProp target "value"), ⟨getProp target "value"⟩))
    ∧ (∀ target, e.target = some target → target.lookup "value" = none →
        setName e store = (.normal .undefined, ⟨.undefined⟩)) := by
  obtain ⟨target⟩ := e
  cases target with
  | none => simp [setName]
  | some t =>
    refine ⟨by simp [setName], by simp, ?_, ?_⟩
    · intro target h
      cases h
      rfl
    · intro target h hnone
      cases h
      simp [setName, getProp, hnone]

/-- C8 at a `null` target (the call throws, the name stays `"Ada"`) and at a
target without a `value` field (the call completes with `undefined`). -/
theorem setName_throws_iff_null_target_witness :
    setName ⟨none⟩ ⟨.str "Ada"⟩ = (.thrown .TypeError, ⟨.str "Ada"⟩)
    ∧ setName ⟨some [("id", .str "board")]⟩ ⟨.str "Ada"⟩ = (.normal .undefined, ⟨.undefined⟩) :=
  ⟨Prod.ext ((setName_throws_iff_null_target ⟨none⟩ ⟨.str "Ada"⟩).1.mpr rfl)
      ((setName_throws_iff_null_target ⟨none⟩ ⟨.str "Ada"⟩).2.1 rfl),
   (setName_throws_iff_null_target ⟨some [("id", .str "board")]⟩ ⟨.str "Ada"⟩).2.2.2
      _ rfl (by decide)⟩

/-- C8 fails as stated: for an event whose target exists but has no `value`
field, and for one whose `value` is a number, `setName` does not crash; it
completes normally and stores `undefined`, respectively the number, in `name`. -/
theorem setName_completes_without_text_value :
    (∀ s : String, getProp [] "value" ≠ .str s)
    ∧ setName ⟨some []⟩ useGameStore = (.normal .undefined, ⟨.undefined⟩)
    ∧ (∀ s : String, getProp [("value", JSValue.num 7)] "value" ≠ .str s)
    ∧ setName ⟨some [("value", .num 7)]⟩ useGameStore = (.normal (.num 7), ⟨.num 7⟩) := by
  refine ⟨?_, rfl, ?_, rfl⟩
  · intro s h
    simp [getProp, List.lookup] at h
  · intro s h
    simp [getProp, List.lookup] at h

/-- C9: `setName` is idempotent: a second call with the same event leaves the
store and the returned value as the first call did; for an event of value `s`
both calls return `s` and leave `name = s`. -/
theorem setName_idempotent (e : Event) (s : String) (store : GameStore) :
    setName e (setName e store).2 = setName e store
    ∧ setName (eventWithValue s) store = (.normal (.str s), ⟨.str s⟩)
    ∧ setName (eventWithValue s) (setName (eventWithValue s) store).2
        = (.normal (.str s), ⟨.str s⟩) := by
  have hs : ∀ st : GameStore,
      setName (eventWithValue s) st = (.normal (.str s), ⟨.str s⟩) := by
    intro st
    unfold eventWithValue
    rw [setName_of_target, getProp_eventWithValue]
  refine ⟨?_, hs store, hs _⟩
  obtain ⟨target⟩ := e
  cases target <;> rfl

/-! ## The route table and the navigator -/

/-- C4: every path declared in the route table resolves to the view bound to it
and does not fail; `/` resolves to `HomePage`, `/game` to `GameContainer`, and
the table declares these two routes and no other. -/
theorem resolve_declared (r : Route) (h : r ∈ routes) :
    resolve r.path = .ok r.component
    ∧ resolve "/" = .ok .HomePage
    ∧ resolve "/game" = .ok .GameContainer
    ∧ (r = ⟨"/", .HomePage⟩ ∨ r = ⟨"/game", .GameContainer⟩)
    ∧ routes.length = 2 := by
  have hr : r = ⟨"/", .HomePage⟩ ∨ r = ⟨"/game", .GameContainer⟩ := by
    simpa [routes] using h
  refine ⟨?_, rfl, rfl, hr, rfl⟩
  rcases hr with rfl | rfl <;> rfl

/-- C4 at the second entry of the table. -/
theorem resolve_declared_witness :
    (⟨"/game", .GameContainer⟩ : Route) ∈ routes
    ∧ resolve "/game" = .ok .GameContainer :=
  ⟨by decide, (resolve_declared ⟨"/game", .GameContainer⟩ (by decide)).1⟩

/-- C5: every path other than the two declared ones, `/` and `/game`, fails to
resolve with `NotFoundError`; no entry of the table turns it into a view. -/
theorem resolve_undeclared (p : String) (hroot : p ≠ "/") (hgame : p ≠ "/game") :
    resolve p = .error .NotFoundError ∧ ∀ v : View, resolve p ≠ .ok v := by
  have hfail : resolve p = .error .NotFoundError := by
    have h1 : ("/" == p) = false := by simpa using fun h => hroot h.symm
    have h2 : ("/game" == p) = false := by simpa using fun h => hgame h.symm
    simp [resolve, resolveIn, routes, List.find?, h1, h2]
  refine ⟨hfail, ?_⟩
  intro v hv
  rw [hfail] at hv
  cases hv

/-- C5 at the path `/nonexistent`. -/
theorem resolve_undeclared_witness :
    "/nonexistent" ≠ "/" ∧ "/nonexistent" ≠ "/game"
    ∧ resolve "/nonexistent" = .error .NotFoundError :=
  ⟨by decide, by decide, (resolve_undeclared "/nonexistent" (by decide) (by decide)).1⟩

/-- C6: the navigator starts at `/`, which resolves to `HomePage`; after
`navigate("/game")` the location is `/game`, which resolves to `GameContainer`;
the transition pushes the new location on top of the history and keeps the
previous location `/` beneath it. -/
theorem navigate_to_game :
    Navigator.start.location = "/"
    ∧ resolve Navigator.start.location = .ok .HomePage
    ∧ (navigate "/game" Navigator.start).location = "/game"
    ∧ resolve (navigate "/game" Navigator.start).location = .ok .GameContainer
    ∧ (navigate "/game" Navigator.start).entries = ["/game", "/"]
    ∧ ∀ (p : String) (nav : Navigator),
        (navigate p nav).location = p ∧ (navigate p nav).entries = p :: nav.entries := by
  refine ⟨rfl, rfl, rfl, rfl, rfl, ?_⟩
  intro p nav
  exact ⟨rfl, rfl⟩

/-- C10: no two entries of `routes` have the same path, so a lookup over the
entries taken in any other order gives, for every path, the same result as the
lookup in declaration order. -/
theorem routes_paths_distinct (other : List Route) (h : other.Perm routes) (p : String) :
    routes.Pairwise (fun a b => a.path ≠ b.path)
    ∧ resolveIn other p = resolveIn routes p := by
  have hpair : routes.Pairwise (fun a b => a.path ≠ b.path) := by decide
  refine ⟨hpair, ?_⟩
  have hnodup : (routes.map Route.path).Nodup := by
    rw [List.Nodup, List.pairwise_map]
    exact hpair
  unfold resolveIn
  rw [find?_path_perm hnodup h p]

/-- C10 at the table read backwards and the path `/game`. -/
theorem routes_paths_distinct_witness :
    routes.reverse.Perm routes
    ∧ resolveIn routes.reverse "/game" = resolveIn routes "/game"
    ∧ resolveIn routes.reverse "/game" = .ok .GameContainer :=
  ⟨List.reverse_perm routes,
   (routes_paths_distinct routes.reverse (List.reverse_perm routes) "/game").2,
   rfl⟩

end Shooter
